import Mathlib

/-!
# custom_any: a type-erased value container (`src/any.h`)

A shallow embedding of `IHolder`, `AnyHolder<T>`, `Any` and `AnyCast<T>`.

* The templates are instantiated at client types, so the development is
  parametric in a `TypeUniverse`: the types, their values, run-time type
  identity, the exceptions their copy constructors throw, which of them have
  a move constructor, and which of them is the class `Any` itself.
* `std::unique_ptr<IHolder>` is `Option`: `none` is `nullptr`.
* Objects of class `Any` live in a `Store` indexed by address, so that the
  identity tests `this != &other` of the assignment operators are tests on
  addresses.
* A call yields an `Effect`: how it completed and the store it leaves.
-/

namespace CustomAny

/-- The client types the templates of `any.h` are instantiated at.
`Ty` names the types, and its decidable equality is run-time type identity
(what `dynamic_cast` tests). `Val T` is the set of values of `T`.
`copyThrows T v` is the exception that the copy constructor of `T` throws when
it is asked to copy `v`, if it throws one; when it completes, the copy is the
value `v` itself and `v` is not modified (the CopyConstructible requirement).
`hasMove T` tells whether `T` has a move constructor; a move constructor is
taken to complete, and a type without one is copied wherever it would be
moved. `isAny T` tells whether `T` is the class `Any` itself, which can be
named as the target of `AnyCast` but at which the constructor template
`Any(T)` is never instantiated. Allocation is taken to complete. -/
structure TypeUniverse where
  /-- Names of the types. -/
  Ty : Type
  /-- Type identity is decidable. -/
  decEq : DecidableEq Ty
  /-- The values of a type. -/
  Val : Ty → Type
  /-- The exceptions client copy constructors throw. -/
  Exn : Type
  /-- The exception thrown by copying a value, if any. -/
  copyThrows : (T : Ty) → Val T → Option Exn
  /-- Whether the type has a move constructor. -/
  hasMove : Ty → Bool
  /-- Whether the type is the class `Any` itself. -/
  isAny : Ty → Bool

instance instDecidableEqTy (U : TypeUniverse) : DecidableEq U.Ty := U.decEq

/-- How a call can end other than by returning. -/
inductive Failure (Exn : Type) where
  /-- The exception `throw BadAnyCast()` of `AnyCast`. -/
  | BadAnyCast : Failure Exn
  /-- An exception thrown by the copy constructor of a stored type. -/
  | copyException (e : Exn) : Failure Exn
  /-- Undefined behaviour: `->` applied to a null `unique_ptr`. -/
  | nullDereference : Failure Exn
  deriving DecidableEq, Repr

/-- The copy constructor of the client type `T` applied to `v`. -/
def TypeUniverse.copy (U : TypeUniverse) (T : U.Ty) (v : U.Val T) :
    Except (Failure U.Exn) (U.Val T) :=
  match U.copyThrows T v with
  | some e => .error (.copyException e)
  | none => .ok v

/-- Initialisation of a `T` from an rvalue of type `T`, as in
`value(std::move(p_value))`: the move constructor, which completes, or for a
type without one the copy constructor. -/
def TypeUniverse.moveOrCopy (U : TypeUniverse) (T : U.Ty) (v : U.Val T) :
    Except (Failure U.Exn) (U.Val T) :=
  if U.hasMove T = true then .ok v else U.copy T v

/-- The form of the argument in an initialisation `Any a(arg)`. -/
inductive ValueCategory where
  /-- A named object, as in `T f; Any a(f);`. -/
  | lvalue
  /-- An object given up by its owner, as in `Any a(std::move(f));`. -/
  | xvalue
  /-- A temporary, as in `Any a(T(...));` or `Any a(42);`. -/
  | prvalue
  deriving DecidableEq, Repr

/-- Initialisation of a by-value parameter of type `T` from an argument whose
value is `v`: the copy constructor for an lvalue, the move constructor (or the
copy constructor of a type without one) for an xvalue, and no constructor
call for a prvalue, which initialises the parameter directly. -/
def TypeUniverse.initParam (U : TypeUniverse) (T : U.Ty) (arg : ValueCategory)
    (v : U.Val T) : Except (Failure U.Exn) (U.Val T) :=
  match arg with
  | .lvalue => U.copy T v
  | .xvalue => U.moveOrCopy T v
  | .prvalue => .ok v

/-- Mirror of `template <class T> struct AnyHolder : public IHolder`:
the single data member `T value`. -/
structure AnyHolder (U : TypeUniverse) (T : U.Ty) where
  /-- Member `T value`. -/
  value : U.Val T

/-- An object seen through `IHolder*`. `IHolder` is abstract and `AnyHolder<T>`
is its only implementation, so the object is an `AnyHolder<T>` for the `T` of
its dynamic type. -/
structure IHolder (U : TypeUniverse) where
  /-- The `T` of the dynamic type `AnyHolder<T>`. -/
  T : U.Ty
  /-- The object itself. -/
  obj : AnyHolder U T

/-- Mirror of `explicit AnyHolder(T p_value) : value(std::move(p_value))`, the
parameter `p_value` being initialised already. -/
def AnyHolder.AnyHolder_ctor {U : TypeUniverse} (T : U.Ty) (p_value : U.Val T) :
    Except (Failure U.Exn) (AnyHolder U T) :=
  match U.moveOrCopy T p_value with
  | .ok v => .ok ⟨v⟩
  | .error e => .error e

/-- Mirror of `AnyHolder<T>::Clone`: `std::make_unique<AnyHolder<T>>(value)`
copy-constructs the new holder's `value` from this one's. -/
def AnyHolder.Clone {U : TypeUniverse} {T : U.Ty} (self : AnyHolder U T) :
    Except (Failure U.Exn) (IHolder U) :=
  match U.copy T self.value with
  | .ok v => .ok ⟨T, ⟨v⟩⟩
  | .error e => .error e

/-- Virtual dispatch of `IHolder::Clone` to the dynamic type. -/
def IHolder.Clone {U : TypeUniverse} (self : IHolder U) :
    Except (Failure U.Exn) (IHolder U) :=
  self.obj.Clone

/-- Mirror of `class Any`: the single member
`std::unique_ptr<IHolder> holder_`. -/
structure Any (U : TypeUniverse) where
  /-- Member `holder_`; `none` is `nullptr`. -/
  holder_ : Option (IHolder U)

/-- Addresses of `Any` objects. -/
abbrev Addr := Nat

/-- The `Any` objects of a program, by address. -/
abbrev Store (U : TypeUniverse) := Addr → Any U

/-- Outcome of a call: `result` tells whether it returned (and what) or how it
failed, `store` is the state of the objects when it ends. After
`Failure.nullDereference` the behaviour is undefined and `store` carries no
meaning. -/
structure Effect (U : TypeUniverse) (α : Type) where
  /-- Returned value or failure. -/
  result : Except (Failure U.Exn) α
  /-- The objects afterwards. -/
  store : Store U

/-- Assignment to the member `holder_` of the object at `a`. -/
def Store.setHolder {U : TypeUniverse} (σ : Store U) (a : Addr)
    (h : Option (IHolder U)) : Store U :=
  Function.update σ a ⟨h⟩

/-- Mirror of `Any::Any() : holder_(nullptr)`, constructing at `this`. -/
def Any.Any_default {U : TypeUniverse} (σ : Store U) (this : Addr) : Effect U Unit :=
  ⟨.ok (), σ.setHolder this none⟩

/-- Mirror of `template <class T> Any::Any(T p_value)`, constructing at `this`
from an argument of category `arg` and value `v`:
`holder_(std::make_unique<AnyHolder<T>>(std::move(p_value)))`.
The template exists only at types other than the class `Any` (`hT`); for an
argument that is an `Any` the copy constructor runs, see `Any.Any_copy`.
Three objects of type `T` are initialised in turn: the parameter `p_value`
from the argument, the parameter of the constructor of `AnyHolder<T>` from
`std::move(p_value)` (forwarded by `make_unique`), and the member `value`
from that parameter. Each may run the copy constructor of `T`; when one
throws, no object is constructed. -/
def Any.Any_value {U : TypeUniverse} (σ : Store U) (this : Addr) (T : U.Ty)
    (v : U.Val T) (arg : ValueCategory) (_hT : U.isAny T = false) : Effect U Unit :=
  match U.initParam T arg v with
  | .error e => ⟨.error e, σ⟩
  | .ok p_value =>
    match U.moveOrCopy T p_value with
    | .error e => ⟨.error e, σ⟩
    | .ok forwarded =>
      match AnyHolder.AnyHolder_ctor T forwarded with
      | .error e => ⟨.error e, σ⟩
      | .ok holder => ⟨.ok (), σ.setHolder this (some ⟨T, holder⟩)⟩

/-- Mirror of `Any::Any(const Any& other) : holder_(other.holder_->Clone())`,
constructing at `this`. There is no test of `other.holder_`: on a null pointer
`->` is undefined behaviour. When `Clone` throws, no object is constructed. -/
def Any.Any_copy {U : TypeUniverse} (σ : Store U) (this other : Addr) : Effect U Unit :=
  match (σ other).holder_ with
  | none => ⟨.error .nullDereference, σ⟩
  | some h =>
    match h.Clone with
    | .ok h' => ⟨.ok (), σ.setHolder this (some h')⟩
    | .error e => ⟨.error e, σ⟩

/-- The initialisation `Any this(std::move(other))`. The class declares no
`Any(Any&&)` (the user-declared copy operations suppress the implicit one), and
the constructor template `Any(T)` is never instantiated with `T = Any`, so the
only viable constructor is `Any(const Any&)`, which binds the rvalue. -/
def Any.Any_from_rvalue {U : TypeUniverse} (σ : Store U) (this other : Addr) :
    Effect U Unit :=
  Any.Any_copy σ this other

/-- Mirror of `Any& Any::operator=(const Any& other)`.
The right-hand side `other.holder_ ? other.holder_->Clone() : nullptr` is
evaluated first; `holder_` is assigned only when it has produced a value. -/
def Any.operator_assign_copy {U : TypeUniverse} (σ : Store U) (this other : Addr) :
    Effect U Unit :=
  if this ≠ other then
    match (σ other).holder_ with
    | some h =>
      match h.Clone with
      | .ok h' => ⟨.ok (), σ.setHolder this (some h')⟩
      | .error e => ⟨.error e, σ⟩
    | none => ⟨.ok (), σ.setHolder this none⟩
  else
    ⟨.ok (), σ⟩

/-- Mirror of `Any& Any::operator=(Any&& other) noexcept`:
`holder_ = std::move(other.holder_)` hands the pointer over and leaves
`other.holder_` null, then `other.holder_ = nullptr`. -/
def Any.operator_assign_move {U : TypeUniverse} (σ : Store U) (this other : Addr) :
    Effect U Unit :=
  if this ≠ other then
    let moved := ((σ.setHolder other none).setHolder this (σ other).holder_)
    ⟨.ok (), moved.setHolder other none⟩
  else
    ⟨.ok (), σ⟩

/-- Mirror of `void Any::Swap(Any& other)`: `std::swap(holder_, other.holder_)`. -/
def Any.Swap {U : TypeUniverse} (σ : Store U) (this other : Addr) : Effect U Unit :=
  let mine := (σ this).holder_
  let theirs := (σ other).holder_
  ⟨.ok (), (σ.setHolder this theirs).setHolder other mine⟩

/-- Mirror of `void Any::Reset()`: `holder_ = nullptr`. -/
def Any.Reset {U : TypeUniverse} (σ : Store U) (this : Addr) : Effect U Unit :=
  ⟨.ok (), σ.setHolder this none⟩

/-- Mirror of `bool Any::HasValue() const`: `holder_ != nullptr`. -/
def Any.HasValue {U : TypeUniverse} (σ : Store U) (this : Addr) : Bool :=
  match (σ this).holder_ with
  | some _ => true
  | none => false

/-- The test `dynamic_cast<AnyHolder<T>*>(p)`: the `AnyHolder<T>` that `p`
points to when `p` is not null and the dynamic type of `*p` is `AnyHolder<T>`,
else a null pointer. -/
def dynamic_cast {U : TypeUniverse} (T : U.Ty) (p : Option (IHolder U)) :
    Option (AnyHolder U T) :=
  match p with
  | none => none
  | some h => if e : h.T = T then some (e ▸ h.obj) else none

/-- Mirror of `template <class T> T AnyCast(const Any& any)`:
on a successful `dynamic_cast`, `return p->value` copy-constructs the returned
`T` from the stored value; else `throw BadAnyCast()`. The parameter is a
reference to const and nothing is written. -/
def AnyCast {U : TypeUniverse} (σ : Store U) (T : U.Ty) (any : Addr) :
    Effect U (U.Val T) :=
  match dynamic_cast T (σ any).holder_ with
  | some p => ⟨U.copy T p.value, σ⟩
  | none => ⟨.error .BadAnyCast, σ⟩

/-! ## Sample client types, for concrete evaluations -/

/-- Four client types. `int`, `long` and `string` stand for the built-in types
and `std::string`. `Fragile` stands for a client class with one `bool` member
`poisoned`, a constructor from `bool`, a non-throwing move constructor, and a
copy constructor that throws `FragileError` when its argument is poisoned. -/
inductive SampleType where
  | int
  | long
  | string
  | Fragile
  deriving DecidableEq, Repr

/-- Values of the sample types; the value of a `Fragile` is its member
`poisoned`. -/
def SampleType.Val : SampleType → Type
  | .int => Int
  | .long => Int
  | .string => String
  | .Fragile => Bool

/-- The one exception a sample copy constructor throws. -/
inductive SampleExn where
  | FragileError
  deriving DecidableEq, Repr

/-- Copying a poisoned `Fragile` throws; every other copy completes. -/
def sampleCopyThrows : (T : SampleType) → T.Val → Option SampleExn
  | .int, _ => none
  | .long, _ => none
  | .string, _ => none
  | .Fragile, poisoned => bif (show Bool from poisoned) then some .FragileError else none

/-- The sample types as a `TypeUniverse`. -/
def Sample : TypeUniverse where
  Ty := SampleType
  decEq := inferInstance
  Val := SampleType.Val
  Exn := SampleExn
  copyThrows := sampleCopyThrows
  hasMove := fun _ => true
  isAny := fun _ => false

/-- A store whose objects are all empty. -/
def Store.allEmpty (U : TypeUniverse) : Store U :=
  fun _ => ⟨none⟩

/-- The program state after `Any a0(42);` (object at address 0). -/
def sampleInt : Store Sample :=
  (Any.Any_value (Store.allEmpty Sample) 0 SampleType.int (42 : Int) .prvalue rfl).store

/-- The program state after `Any a0(Fragile(true)); Any a1(7);`. -/
def sampleFragile : Store Sample :=
  (Any.Any_value
    (Any.Any_value (Store.allEmpty Sample) 0 SampleType.Fragile true .prvalue rfl).store
    1 SampleType.int (7 : Int) .prvalue rfl).store

/-! ## Calls of the public interface -/

/-- The initialisation `Any this(other)` where the argument `other` is itself
an `Any`. The constructor template `Any(T)` would need `T = Any`, and a member
function template is never instantiated to a constructor whose first
parameter is the class itself, so the constructor that runs is
`Any(const Any&)`. -/
def Any.Any_from_Any {U : TypeUniverse} (σ : Store U) (this other : Addr) :
    Effect U Unit :=
  Any.Any_copy σ this other

/-- A call of a constructor or of a non-const member function of `Any`. -/
inductive Call (U : TypeUniverse) where
  /-- `Any this;` -/
  | Any_default (this : Addr)
  /-- `Any this(arg);` with an argument of type `T`, not the class `Any`. -/
  | Any_value (this : Addr) (T : U.Ty) (v : U.Val T) (arg : ValueCategory)
      (hT : U.isAny T = false)
  /-- `Any this(other);` -/
  | Any_copy (this other : Addr)
  /-- `this = other;` -/
  | operator_assign_copy (this other : Addr)
  /-- `this = std::move(other);` -/
  | operator_assign_move (this other : Addr)
  /-- `this.Swap(other);` -/
  | Swap (this other : Addr)
  /-- `this.Reset();` -/
  | Reset (this : Addr)

/-- The function that a call runs. -/
def Call.run {U : TypeUniverse} : Call U → Store U → Effect U Unit
  | .Any_default this, σ => Any.Any_default σ this
  | .Any_value this T v arg hT, σ => Any.Any_value σ this T v arg hT
  | .Any_copy this other, σ => Any.Any_copy σ this other
  | .operator_assign_copy this other, σ => Any.operator_assign_copy σ this other
  | .operator_assign_move this other, σ => Any.operator_assign_move σ this other
  | .Swap this other, σ => Any.Swap σ this other
  | .Reset this, σ => Any.Reset σ this

/-- The objects a call has non-const access to: `this`, and `other` where the
parameter is `Any&&` or `Any&` (a `const Any&` parameter is read only). -/
def Call.targets {U : TypeUniverse} : Call U → List Addr
  | .Any_default this => [this]
  | .Any_value this _ _ _ _ => [this]
  | .Any_copy this _ => [this]
  | .operator_assign_copy this _ => [this]
  | .operator_assign_move this other => [this, other]
  | .Swap this other => [this, other]
  | .Reset this => [this]

/-- The state after a sequence of calls, run in order. A call that throws
leaves the state it ended in and the sequence goes on (the exception is
caught). -/
def runCalls {U : TypeUniverse} : List (Call U) → Store U → Store U
  | [], σ => σ
  | k :: ks, σ => runCalls ks (k.run σ).store

/-! ## Sample types with the class `Any` among them -/

/-- Two client types: `int`, and the class `Any` itself used as a stored
type. -/
inductive NestType where
  | int
  | Any
  deriving DecidableEq, Repr

/-- Values of the two types; a value of class `Any` is given here as a
container that is empty or holds an `int`. -/
def NestType.Val : NestType → Type
  | .int => Int
  | .Any => Option Int

/-- The two types as a `TypeUniverse`; no copy constructor throws. -/
def Nest : TypeUniverse where
  Ty := NestType
  decEq := inferInstance
  Val := NestType.Val
  Exn := Empty
  copyThrows := fun _ _ => none
  hasMove := fun _ => true
  isAny := fun T => decide (T = NestType.Any)

/-- The program state after `Any a0(42);` over `Nest`. -/
def nestInt : Store Nest :=
  (Any.Any_value (Store.allEmpty Nest) 0 NestType.int (42 : Int) .prvalue rfl).store

/-! ## Basic facts about the store, `dynamic_cast` and copies -/

theorem Store.setHolder_same {U : TypeUniverse} (σ : Store U) (a : Addr)
    (h : Option (IHolder U)) : (σ.setHolder a h) a = ⟨h⟩ := by
  simp [Store.setHolder]

theorem Store.setHolder_other {U : TypeUniverse} (σ : Store U) {a b : Addr}
    (hne : b ≠ a) (h : Option (IHolder U)) : (σ.setHolder a h) b = σ b := by
  simp [Store.setHolder, Function.update_noteq hne]

theorem dynamic_cast_null {U : TypeUniverse} (T : U.Ty) :
    dynamic_cast T (none : Option (IHolder U)) = none := rfl

theorem dynamic_cast_match {U : TypeUniverse} (T : U.Ty) (o : AnyHolder U T) :
    dynamic_cast T (some ⟨T, o⟩) = some o := by
  simp [dynamic_cast]

theorem dynamic_cast_mismatch {U : TypeUniverse} (T : U.Ty) (h : IHolder U)
    (hne : T ≠ h.T) : dynamic_cast T (some h) = none := by
  have hne2 : ¬ h.T = T := fun e => hne e.symm
  simp [dynamic_cast, hne2]

theorem copy_completes {U : TypeUniverse} {T : U.Ty} {v : U.Val T}
    (hcopy : U.copyThrows T v = none) : U.copy T v = .ok v := by
  simp [TypeUniverse.copy, hcopy]

theorem copy_throws {U : TypeUniverse} {T : U.Ty} {v : U.Val T} {e : U.Exn}
    (hcopy : U.copyThrows T v = some e) : U.copy T v = .error (.copyException e) := by
  simp [TypeUniverse.copy, hcopy]

theorem copy_ne_BadAnyCast {U : TypeUniverse} (T : U.Ty) (v : U.Val T) :
    U.copy T v ≠ .error .BadAnyCast := by
  unfold TypeUniverse.copy
  cases U.copyThrows T v <;> simp

/-- The value constructor builds the holder when the copy constructor of `T`
completes on the value. -/
theorem Any_value_of_copy_completes {U : TypeUniverse} (σ : Store U) (this : Addr)
    (T : U.Ty) (v : U.Val T) (arg : ValueCategory) (hT : U.isAny T = false)
    (hcopy : U.copyThrows T v = none) :
    Any.Any_value σ this T v arg hT = ⟨.ok (), σ.setHolder this (some ⟨T, ⟨v⟩⟩)⟩ := by
  cases arg <;> cases hm : U.hasMove T <;>
    simp [Any.Any_value, TypeUniverse.initParam, TypeUniverse.moveOrCopy,
      AnyHolder.AnyHolder_ctor, TypeUniverse.copy, hcopy, hm]

/-- The value constructor builds the holder, and runs no copy constructor,
when the argument is not an lvalue and `T` has a move constructor. -/
theorem Any_value_of_moved {U : TypeUniverse} (σ : Store U) (this : Addr)
    (T : U.Ty) (v : U.Val T) (arg : ValueCategory) (hT : U.isAny T = false)
    (harg : arg ≠ .lvalue) (hmove : U.hasMove T = true) :
    Any.Any_value σ this T v arg hT = ⟨.ok (), σ.setHolder this (some ⟨T, ⟨v⟩⟩)⟩ := by
  cases arg
  · exact absurd rfl harg
  · simp [Any.Any_value, TypeUniverse.initParam, TypeUniverse.moveOrCopy,
      AnyHolder.AnyHolder_ctor, hmove]
  · simp [Any.Any_value, TypeUniverse.initParam, TypeUniverse.moveOrCopy,
      AnyHolder.AnyHolder_ctor, hmove]

/-- The value constructor ends with the exception of the copy constructor of
`T` when that constructor has to run (lvalue argument, or no move
constructor) and throws on the value. -/
theorem Any_value_of_copy_throws {U : TypeUniverse} (σ : Store U) (this : Addr)
    (T : U.Ty) (v : U.Val T) (arg : ValueCategory) (hT : U.isAny T = false)
    (e : U.Exn) (hcopy : U.copyThrows T v = some e)
    (hneed : arg = .lvalue ∨ U.hasMove T = false) :
    Any.Any_value σ this T v arg hT = ⟨.error (.copyException e), σ⟩ := by
  cases arg <;> cases hm : U.hasMove T <;>
    simp_all [Any.Any_value, TypeUniverse.initParam, TypeUniverse.moveOrCopy,
      AnyHolder.AnyHolder_ctor, TypeUniverse.copy]

/-- The two ways the value constructor can end. -/
theorem Any_value_cases {U : TypeUniverse} (σ : Store U) (this : Addr)
    (T : U.Ty) (v : U.Val T) (arg : ValueCategory) (hT : U.isAny T = false) :
    (Any.Any_value σ this T v arg hT = ⟨.ok (), σ.setHolder this (some ⟨T, ⟨v⟩⟩)⟩ ∧
      (U.copyThrows T v = none ∨ (arg ≠ .lvalue ∧ U.hasMove T = true))) ∨
    (∃ e, U.copyThrows T v = some e ∧ (arg = .lvalue ∨ U.hasMove T = false) ∧
      Any.Any_value σ this T v arg hT = ⟨.error (.copyException e), σ⟩) := by
  cases hcopy : U.copyThrows T v with
  | none => exact Or.inl ⟨Any_value_of_copy_completes σ this T v arg hT hcopy, Or.inl rfl⟩
  | some e =>
    by_cases hneed : arg = .lvalue ∨ U.hasMove T = false
    · exact Or.inr ⟨e, rfl, hneed, Any_value_of_copy_throws σ this T v arg hT e hcopy hneed⟩
    · have harg : arg ≠ .lvalue := fun h => hneed (Or.inl h)
      have hmove : U.hasMove T = true := by
        cases hm : U.hasMove T
        · exact absurd (Or.inr hm) hneed
        · rfl
      exact Or.inl ⟨Any_value_of_moved σ this T v arg hT harg hmove,
        Or.inr ⟨harg, hmove⟩⟩

/-- `Clone` through the constructor of `AnyHolder<T>`: the parameter of the
constructor is copied from `value`, then the member of the new holder is
initialised from the parameter. The second step always completes on a copy
that was made, so `AnyHolder.Clone` is the outcome of the copy alone. -/
theorem Clone_eq_copy_then_ctor {U : TypeUniverse} {T : U.Ty} (self : AnyHolder U T) :
    self.Clone =
      (match U.copy T self.value with
        | .error e => .error e
        | .ok p_value =>
          match AnyHolder.AnyHolder_ctor T p_value with
          | .error e => .error e
          | .ok holder => .ok ⟨T, holder⟩) := by
  cases hcopy : U.copyThrows T self.value <;> cases hm : U.hasMove T <;>
    simp [AnyHolder.Clone, AnyHolder.AnyHolder_ctor, TypeUniverse.moveOrCopy,
      TypeUniverse.copy, hcopy, hm]

/-- What `AnyCast<T>` does on an object holding an `AnyHolder<T>`. -/
theorem AnyCast_of_holder {U : TypeUniverse} (σ : Store U) (c : Addr) (T : U.Ty)
    (o : AnyHolder U T) (hc : (σ c).holder_ = some ⟨T, o⟩) :
    AnyCast σ T c = ⟨U.copy T o.value, σ⟩ := by
  simp [AnyCast, hc, dynamic_cast_match]

/-- What `AnyCast<T>` does on an object holding another type. -/
theorem AnyCast_of_other_holder {U : TypeUniverse} (σ : Store U) (c : Addr) (T : U.Ty)
    (h : IHolder U) (hc : (σ c).holder_ = some h) (hne : T ≠ h.T) :
    AnyCast σ T c = ⟨.error .BadAnyCast, σ⟩ := by
  simp [AnyCast, hc, dynamic_cast_mismatch T h hne]

/-- What `AnyCast<T>` does on an object with a null `holder_`. -/
theorem AnyCast_of_null {U : TypeUniverse} (σ : Store U) (c : Addr) (T : U.Ty)
    (hc : (σ c).holder_ = none) :
    AnyCast σ T c = ⟨.error .BadAnyCast, σ⟩ := by
  simp [AnyCast, hc, dynamic_cast_null]

theorem HasValue_eq_false_iff {U : TypeUniverse} (σ : Store U) (c : Addr) :
    Any.HasValue σ c = false ↔ (σ c).holder_ = none := by
  unfold Any.HasValue
  cases (σ c).holder_ <;> simp

theorem HasValue_eq_true_iff {U : TypeUniverse} (σ : Store U) (c : Addr) :
    Any.HasValue σ c = true ↔ ∃ h, (σ c).holder_ = some h := by
  unfold Any.HasValue
  cases (σ c).holder_ <;> simp

/-! ## Construction and the checked cast -/

/-- C2: on an occupied container whose holder is an `AnyHolder<T>`, `AnyCast<T2>`
for any type `T2` other than `T` throws `BadAnyCast` and returns no value;
types are compared by identity only. -/
theorem AnyCast_exact_type (U : TypeUniverse) (σ : Store U) (c : Addr)
    (h : IHolder U) (T2 : U.Ty)
    (hocc : (σ c).holder_ = some h) (hne : T2 ≠ h.T) :
    (AnyCast σ T2 c).result = .error .BadAnyCast ∧
    ∀ v, (AnyCast σ T2 c).result ≠ .ok v := by
  rw [AnyCast_of_other_holder σ c T2 h hocc hne]
  exact ⟨rfl, fun v hv => Except.noConfusion hv⟩

/-- Witness of C2: after `Any a0(42)`, `AnyCast<int>(a0)` is 42, and both
`AnyCast<string>(a0)` and `AnyCast<long>(a0)` throw `BadAnyCast`. -/
theorem AnyCast_exact_type_witness :
    (sampleInt 0).holder_ = some ⟨SampleType.int, ⟨(42 : Int)⟩⟩ ∧
    SampleType.string ≠ SampleType.int ∧
    (AnyCast sampleInt SampleType.int 0).result = .ok (42 : Int) ∧
    (AnyCast sampleInt SampleType.string 0).result = .error .BadAnyCast ∧
    (AnyCast sampleInt SampleType.long 0).result = .error .BadAnyCast :=
  ⟨rfl, by decide, rfl,
    (AnyCast_exact_type Sample sampleInt 0 ⟨SampleType.int, ⟨(42 : Int)⟩⟩ SampleType.string
      rfl (show SampleType.string ≠ SampleType.int by decide)).1,
    (AnyCast_exact_type Sample sampleInt 0 ⟨SampleType.int, ⟨(42 : Int)⟩⟩ SampleType.long
      rfl (show SampleType.long ≠ SampleType.int by decide)).1⟩

/-- C3: on an empty container `AnyCast<T>` throws `BadAnyCast` for every `T`, so
no value (default or other) is returned; this covers a default-constructed
container, a container after `Reset`, and the source of a move assignment. -/
theorem AnyCast_empty (U : TypeUniverse) (σ : Store U) (c d : Addr) (T : U.Ty) :
    (Any.HasValue σ c = false →
      (AnyCast σ T c).result = .error .BadAnyCast ∧
      ∀ v, (AnyCast σ T c).result ≠ .ok v) ∧
    (AnyCast (Any.Any_default σ c).store T c).result = .error .BadAnyCast ∧
    (AnyCast (Any.Reset σ c).store T c).result = .error .BadAnyCast ∧
    (d ≠ c →
      (AnyCast (Any.operator_assign_move σ d c).store T c).result = .error .BadAnyCast) := by
  refine ⟨fun hempty => ?_, ?_, ?_, fun hdc => ?_⟩
  · rw [AnyCast_of_null σ c T ((HasValue_eq_false_iff σ c).1 hempty)]
    exact ⟨rfl, fun v hv => Except.noConfusion hv⟩
  · rw [AnyCast_of_null _ c T (by simp [Any.Any_default, Store.setHolder_same])]
  · rw [AnyCast_of_null _ c T (by simp [Any.Reset, Store.setHolder_same])]
  · rw [AnyCast_of_null _ c T
      (by simp [Any.operator_assign_move, hdc, Store.setHolder_same])]

/-- Witness of C3: `Any a0(std::string("x")); a0.Reset(); AnyCast<std::string>(a0)` throws
`BadAnyCast`, and so does the cast on an object that is empty. -/
theorem AnyCast_empty_witness :
    Any.HasValue (Store.allEmpty Sample) 0 = false ∧
    (AnyCast (Store.allEmpty Sample) SampleType.string 0).result = .error .BadAnyCast ∧
    (AnyCast (Any.Reset (Any.Any_value (Store.allEmpty Sample) 0 SampleType.string "x" .prvalue rfl).store
      0).store SampleType.string 0).result = .error .BadAnyCast ∧
    (1 : Addr) ≠ 0 ∧
    (AnyCast (Any.operator_assign_move sampleInt 1 0).store SampleType.int 0).result
      = .error .BadAnyCast :=
  ⟨rfl, ((AnyCast_empty Sample (Store.allEmpty Sample) 0 1 SampleType.string).1 rfl).1,
    (AnyCast_empty Sample (Any.Any_value (Store.allEmpty Sample) 0 SampleType.string "x" .prvalue rfl).store
      0 1 SampleType.string).2.2.1,
    by decide,
    (AnyCast_empty Sample sampleInt 0 1 SampleType.int).2.2.2 (by decide)⟩

/-- C5 (code defect): copy-constructing from an empty source evaluates
`other.holder_->Clone()` on a null `holder_`; the constructor does not return
an empty container. -/
theorem Any_copy_of_empty (U : TypeUniverse) (σ : Store U) (d s : Addr)
    (hempty : Any.HasValue σ s = false) :
    (Any.Any_copy σ d s).result = .error .nullDereference := by
  have hs : (σ s).holder_ = none := (HasValue_eq_false_iff σ s).1 hempty
  simp [Any.Any_copy, hs]

/-- Evaluation for C5: `Any a0; Any a1(a0);`. -/
theorem Any_copy_of_empty_witness :
    Any.HasValue (Any.Any_default (Store.allEmpty Sample) 0).store 0 = false ∧
    (Any.Any_copy (Any.Any_default (Store.allEmpty Sample) 0).store 1 0).result
      = .error .nullDereference :=
  ⟨rfl, Any_copy_of_empty Sample (Any.Any_default (Store.allEmpty Sample) 0).store 1 0 rfl⟩

/-- C6 (code defect): `Any d(std::move(s))` runs the copy constructor. An
occupied source still has its value afterwards, and the holder is duplicated:
when its `Clone` throws, the construction ends with that exception. -/
theorem Any_from_rvalue_keeps_source (U : TypeUniverse) (σ : Store U) (d s : Addr)
    (hds : d ≠ s) (hocc : Any.HasValue σ s = true) :
    Any.HasValue (Any.Any_from_rvalue σ d s).store s = true ∧
    (Any.Any_from_rvalue σ d s).store s = σ s ∧
    ∀ h e, (σ s).holder_ = some h → h.Clone = .error e →
      (Any.Any_from_rvalue σ d s).result = .error e := by
  obtain ⟨h, hs⟩ := (HasValue_eq_true_iff σ s).1 hocc
  have hsd : s ≠ d := fun e => hds e.symm
  have hkeep : (Any.Any_from_rvalue σ d s).store s = σ s := by
    unfold Any.Any_from_rvalue Any.Any_copy
    simp only [hs]
    split
    · exact Store.setHolder_other σ hsd _
    · rfl
  refine ⟨?_, hkeep, ?_⟩
  · unfold Any.HasValue
    rw [hkeep, hs]
  · intro h2 e hs2 hfail
    rw [hs] at hs2
    cases hs2
    simp [Any.Any_from_rvalue, Any.Any_copy, hs, hfail]

/-- Evaluation for C6: after `Any a0(42); Any a1(std::move(a0));` the source
`a0` still has its value 42. -/
theorem Any_from_rvalue_keeps_source_witness :
    (1 : Addr) ≠ 0 ∧ Any.HasValue sampleInt 0 = true ∧
    Any.HasValue (Any.Any_from_rvalue sampleInt 1 0).store 0 = true ∧
    (AnyCast (Any.Any_from_rvalue sampleInt 1 0).store SampleType.int 0).result
      = .ok (42 : Int) :=
  ⟨by decide, rfl,
    (Any_from_rvalue_keeps_source Sample sampleInt 1 0 (by decide) rfl).1, rfl⟩

/-! ## Assignment -/

/-- The result of `AnyCast<T>` is a function of the `holder_` it reads. -/
theorem AnyCast_result_congr {U : TypeUniverse} (σ₁ σ₂ : Store U) (a b : Addr) (T : U.Ty)
    (hab : (σ₁ a).holder_ = (σ₂ b).holder_) :
    (AnyCast σ₁ T a).result = (AnyCast σ₂ T b).result := by
  unfold AnyCast
  rw [hab]
  cases dynamic_cast T (σ₂ b).holder_ <;> rfl

theorem HasValue_congr {U : TypeUniverse} (σ₁ σ₂ : Store U) (a b : Addr)
    (hab : (σ₁ a).holder_ = (σ₂ b).holder_) :
    Any.HasValue σ₁ a = Any.HasValue σ₂ b := by
  unfold Any.HasValue
  rw [hab]

/-- The store that a move assignment between two distinct objects leaves. -/
theorem operator_assign_move_store {U : TypeUniverse} (σ : Store U) (d s : Addr)
    (hds : d ≠ s) :
    (Any.operator_assign_move σ d s).store d = σ s ∧
    (Any.operator_assign_move σ d s).store s = ⟨none⟩ ∧
    ∀ a, a ≠ d → a ≠ s → (Any.operator_assign_move σ d s).store a = σ a := by
  refine ⟨?_, ?_, fun a had has => ?_⟩
  · simp [Any.operator_assign_move, hds, Store.setHolder_other _ hds, Store.setHolder_same]
  · simp [Any.operator_assign_move, hds, Store.setHolder_same]
  · simp [Any.operator_assign_move, hds, Store.setHolder_other _ had,
      Store.setHolder_other _ has]

/-- C7 (amended): after `d = std::move(s)` on distinct containers, which always
returns, `s` is empty, `d` is in the state `s` was in (so `HasValue(d)` is the
prior `HasValue(s)`, the previous value of `d` is gone, and `AnyCast<T>(d)` gives
for every `T` what `AnyCast<T>(s)` gave before); if `s` held `v` of type `T`
then `AnyCast<T>(d)` returns `v` whenever the copy constructor of `T` completes
on `v`. No other container changes. -/
theorem operator_assign_move_spec (U : TypeUniverse) (σ : Store U) (d s : Addr)
    (hds : d ≠ s) :
    (Any.operator_assign_move σ d s).result = .ok () ∧
    Any.HasValue (Any.operator_assign_move σ d s).store s = false ∧
    Any.HasValue (Any.operator_assign_move σ d s).store d = Any.HasValue σ s ∧
    (Any.operator_assign_move σ d s).store d = σ s ∧
    (∀ T, (AnyCast (Any.operator_assign_move σ d s).store T d).result
      = (AnyCast σ T s).result) ∧
    (∀ (T : U.Ty) (v : U.Val T), (σ s).holder_ = some ⟨T, ⟨v⟩⟩ →
      U.copyThrows T v = none →
      (AnyCast (Any.operator_assign_move σ d s).store T d).result = .ok v) ∧
    (∀ a, a ≠ d → a ≠ s → (Any.operator_assign_move σ d s).store a = σ a) := by
  obtain ⟨hd, hs, hframe⟩ := operator_assign_move_store σ d s hds
  have hcast : ∀ T, (AnyCast (Any.operator_assign_move σ d s).store T d).result
      = (AnyCast σ T s).result :=
    fun T => AnyCast_result_congr _ σ d s T (by rw [hd])
  refine ⟨?_, ?_, ?_, hd, hcast, ?_, hframe⟩
  · simp [Any.operator_assign_move, hds]
  · exact (HasValue_eq_false_iff _ s).2 (by rw [hs])
  · exact HasValue_congr _ σ d s (by rw [hd])
  · intro T v hv hcopy
    rw [hcast T, AnyCast_of_holder σ s T ⟨v⟩ hv]
    exact copy_completes hcopy

/-- Witness of C7 (amended): `Any a0(42); Any a1; a1 = std::move(a0);` leaves
`a0` empty and `AnyCast<int>(a1)` returns 42. -/
theorem operator_assign_move_spec_witness :
    (1 : Addr) ≠ 0 ∧
    Any.HasValue (Any.operator_assign_move sampleInt 1 0).store 0 = false ∧
    Any.HasValue (Any.operator_assign_move sampleInt 1 0).store 1 = true ∧
    (AnyCast (Any.operator_assign_move sampleInt 1 0).store SampleType.int 1).result
      = .ok (42 : Int) :=
  ⟨by decide,
    (operator_assign_move_spec Sample sampleInt 1 0 (by decide)).2.1,
    (operator_assign_move_spec Sample sampleInt 1 0 (by decide)).2.2.1,
    (operator_assign_move_spec Sample sampleInt 1 0 (by decide)).2.2.2.2.2.1
      SampleType.int (42 : Int) rfl rfl⟩

/-- Counterexample to C7 as stated: after
`Any a0(Fragile(true)); Any a1(7); a1 = std::move(a0);` the container `a1` holds
the poisoned `Fragile`, yet `AnyCast<Fragile>(a1)` does not return it: it ends
with the exception of the copy constructor. -/
theorem operator_assign_move_counterexample :
    (sampleFragile 0).holder_ = some ⟨SampleType.Fragile, ⟨true⟩⟩ ∧
    ((Any.operator_assign_move sampleFragile 1 0).store 1).holder_
      = some ⟨SampleType.Fragile, ⟨true⟩⟩ ∧
    (AnyCast (Any.operator_assign_move sampleFragile 1 0).store SampleType.Fragile 1).result
      = .error (.copyException SampleExn.FragileError) ∧
    (AnyCast (Any.operator_assign_move sampleFragile 1 0).store SampleType.Fragile 1).result
      ≠ .ok true :=
  ⟨rfl, rfl, rfl, fun h => Except.noConfusion h⟩

/-- A `Clone` that completes yields a holder equal to the receiver. -/
theorem Clone_ok_eq {U : TypeUniverse} (h h2 : IHolder U) (hcl : h.Clone = .ok h2) :
    h2 = h := by
  unfold IHolder.Clone AnyHolder.Clone at hcl
  cases hcp : U.copy h.T h.obj.value with
  | error e => rw [hcp] at hcl; exact Except.noConfusion hcl
  | ok v =>
    rw [hcp] at hcl
    unfold TypeUniverse.copy at hcp
    cases hthr : U.copyThrows h.T h.obj.value with
    | some e => rw [hthr] at hcp; exact Except.noConfusion hcp
    | none =>
      rw [hthr] at hcp
      cases hcp
      cases hcl
      rfl

/-- `Clone` completes exactly when the copy constructor of the stored type
completes on the stored value. -/
theorem Clone_of_copy_completes {U : TypeUniverse} (h : IHolder U)
    (hcopy : U.copyThrows h.T h.obj.value = none) : h.Clone = .ok h := by
  simp [IHolder.Clone, AnyHolder.Clone, copy_completes hcopy]

/-- C8 (amended): for distinct containers `d` and `s` such that duplicating the
holder of `s` does not fail (`s` is empty, or the copy constructor of the held
type completes on the held value), `d = s` returns, leaves `d` observably equal
to `s` (same `HasValue`, same result of `AnyCast<T>` for every `T`), and leaves
`s` and every other container unchanged. -/
theorem operator_assign_copy_spec (U : TypeUniverse) (σ : Store U) (d s : Addr)
    (hds : d ≠ s)
    (hclone : ∀ h, (σ s).holder_ = some h → U.copyThrows h.T h.obj.value = none) :
    (Any.operator_assign_copy σ d s).result = .ok () ∧
    (Any.operator_assign_copy σ d s).store d = σ s ∧
    (Any.operator_assign_copy σ d s).store s = σ s ∧
    Any.HasValue (Any.operator_assign_copy σ d s).store d
      = Any.HasValue (Any.operator_assign_copy σ d s).store s ∧
    (∀ T, (AnyCast (Any.operator_assign_copy σ d s).store T d).result
      = (AnyCast (Any.operator_assign_copy σ d s).store T s).result) ∧
    (∀ a, a ≠ d → (Any.operator_assign_copy σ d s).store a = σ a) := by
  have hsd : s ≠ d := fun e => hds e.symm
  have hshape : Any.operator_assign_copy σ d s = ⟨.ok (), σ.setHolder d (σ s).holder_⟩ := by
    unfold Any.operator_assign_copy
    cases hs : (σ s).holder_ with
    | none => simp [hds]
    | some h => simp [hds, Clone_of_copy_completes h (hclone h hs)]
  have hd : (Any.operator_assign_copy σ d s).store d = σ s := by
    rw [hshape]
    exact Store.setHolder_same σ d _
  have hframe : ∀ a, a ≠ d → (Any.operator_assign_copy σ d s).store a = σ a := by
    intro a had
    rw [hshape]
    exact Store.setHolder_other σ had _
  have hs2 : (Any.operator_assign_copy σ d s).store s = σ s := hframe s hsd
  refine ⟨by rw [hshape], hd, hs2, ?_, ?_, hframe⟩
  · exact HasValue_congr _ _ d s (by rw [hd, hs2])
  · exact fun T => AnyCast_result_congr _ _ d s T (by rw [hd, hs2])

/-- Witness of C8 (amended): `Any a0(42); Any a1; a1 = a0;` returns and both
`AnyCast<int>(a1)` and `AnyCast<int>(a0)` return 42. -/
theorem operator_assign_copy_spec_witness :
    (1 : Addr) ≠ 0 ∧
    (Any.operator_assign_copy sampleInt 1 0).result = .ok () ∧
    (Any.operator_assign_copy sampleInt 1 0).store 1 = sampleInt 0 ∧
    (AnyCast (Any.operator_assign_copy sampleInt 1 0).store SampleType.int 1).result
      = .ok (42 : Int) :=
  ⟨by decide,
    (operator_assign_copy_spec Sample sampleInt 1 0 (by decide)
      (fun h hh => by cases hh; rfl)).1,
    (operator_assign_copy_spec Sample sampleInt 1 0 (by decide)
      (fun h hh => by cases hh; rfl)).2.1,
    rfl⟩

/-- Counterexample to C8 as stated: after
`Any a0(Fragile(true)); Any a1(7); a1 = a0;` the assignment has ended with the
exception of the copy constructor and `a1` is not observably equal to `a0`:
`AnyCast<int>(a1)` returns 7 while `AnyCast<int>(a0)` throws `BadAnyCast`. -/
theorem operator_assign_copy_counterexample :
    (Any.operator_assign_copy sampleFragile 1 0).result
      = .error (.copyException SampleExn.FragileError) ∧
    (AnyCast (Any.operator_assign_copy sampleFragile 1 0).store SampleType.int 1).result
      = .ok (7 : Int) ∧
    (AnyCast (Any.operator_assign_copy sampleFragile 1 0).store SampleType.int 0).result
      = .error .BadAnyCast ∧
    (AnyCast (Any.operator_assign_copy sampleFragile 1 0).store SampleType.int 1).result
      ≠ (AnyCast (Any.operator_assign_copy sampleFragile 1 0).store SampleType.int 0).result :=
  ⟨rfl, rfl, rfl, fun h => Except.noConfusion h⟩

/-- C9: when duplicating the holder of an occupied source `s` fails with `e`,
the copy assignment `d = s` leaves every container, `d` included, exactly as
it was, and (for `d` and `s` distinct, the case in which a duplication takes
place) ends with that same failure `e`. -/
theorem operator_assign_copy_strong_guarantee (U : TypeUniverse) (σ : Store U)
    (d s : Addr) (h : IHolder U) (e : Failure U.Exn)
    (hocc : (σ s).holder_ = some h) (hfail : h.Clone = .error e) :
    (Any.operator_assign_copy σ d s).store = σ ∧
    (d ≠ s → (Any.operator_assign_copy σ d s).result = .error e) := by
  unfold Any.operator_assign_copy
  by_cases hds : d = s
  · simp [hds]
  · simp [hds, hocc, hfail]

/-- Witness of C9: in `Any a0(Fragile(true)); Any a1(7); a1 = a0;` the
assignment ends with `FragileError` and `a1` still holds the `int` 7. -/
theorem operator_assign_copy_strong_guarantee_witness :
    (sampleFragile 0).holder_ = some ⟨SampleType.Fragile, ⟨true⟩⟩ ∧
    IHolder.Clone (U := Sample) ⟨SampleType.Fragile, ⟨true⟩⟩
      = .error (.copyException SampleExn.FragileError) ∧
    (Any.operator_assign_copy sampleFragile 1 0).store = sampleFragile ∧
    (Any.operator_assign_copy sampleFragile 1 0).result
      = .error (.copyException SampleExn.FragileError) ∧
    ((Any.operator_assign_copy sampleFragile 1 0).store 1).holder_
      = some ⟨SampleType.int, ⟨(7 : Int)⟩⟩ :=
  ⟨rfl, rfl,
    (operator_assign_copy_strong_guarantee Sample sampleFragile 1 0
      ⟨SampleType.Fragile, ⟨true⟩⟩ (.copyException SampleExn.FragileError) rfl rfl).1,
    (operator_assign_copy_strong_guarantee Sample sampleFragile 1 0
      ⟨SampleType.Fragile, ⟨true⟩⟩ (.copyException SampleExn.FragileError) rfl rfl).2
      (by decide),
    rfl⟩

/-! ## The checked cast reads only -/

/-- C10 (amended): `AnyCast<T>(c)` leaves every container unchanged, whether it
returns or throws, so a second `AnyCast<T>(c)` gives the same result as the
first and `HasValue(c)` is what it was; for `c` holding `v` of type `T`, both
calls return `v` whenever the copy constructor of `T` completes on `v`, and
`HasValue(c)` is still true. -/
theorem AnyCast_non_destructive (U : TypeUniverse) (σ : Store U) (c : Addr) (T : U.Ty) :
    (AnyCast σ T c).store = σ ∧
    (AnyCast (AnyCast σ T c).store T c).result = (AnyCast σ T c).result ∧
    Any.HasValue (AnyCast σ T c).store c = Any.HasValue σ c ∧
    ∀ v : U.Val T, (σ c).holder_ = some ⟨T, ⟨v⟩⟩ → U.copyThrows T v = none →
      (AnyCast σ T c).result = .ok v ∧
      (AnyCast (AnyCast σ T c).store T c).result = .ok v ∧
      Any.HasValue (AnyCast (AnyCast σ T c).store T c).store c = true := by
  have hstore : ∀ σ2 : Store U, (AnyCast σ2 T c).store = σ2 := by
    intro σ2
    unfold AnyCast
    cases dynamic_cast T (σ2 c).holder_ <;> rfl
  refine ⟨hstore σ, by rw [hstore σ], by rw [hstore σ], ?_⟩
  intro v hv hcopy
  rw [hstore σ, hstore σ, AnyCast_of_holder σ c T ⟨v⟩ hv]
  exact ⟨copy_completes hcopy, copy_completes hcopy,
    (HasValue_eq_true_iff σ c).2 ⟨_, hv⟩⟩

/-- Witness of C10 (amended): after `Any a0(42)`, two successive
`AnyCast<int>(a0)` both return 42 and `a0` still has its value. -/
theorem AnyCast_non_destructive_witness :
    (sampleInt 0).holder_ = some ⟨SampleType.int, ⟨(42 : Int)⟩⟩ ∧
    Sample.copyThrows SampleType.int (42 : Int) = none ∧
    (AnyCast sampleInt SampleType.int 0).result = .ok (42 : Int) ∧
    (AnyCast (AnyCast sampleInt SampleType.int 0).store SampleType.int 0).result
      = .ok (42 : Int) ∧
    Any.HasValue (AnyCast (AnyCast sampleInt SampleType.int 0).store SampleType.int 0).store 0
      = true :=
  ⟨rfl, rfl,
    (AnyCast_non_destructive Sample sampleInt 0 SampleType.int).2.2.2 (42 : Int) rfl rfl⟩

/-- Counterexample to C10 as stated: `a0` in `Any a0(Fragile(true))` holds a
value of type `Fragile`, and neither of two successive `AnyCast<Fragile>(a0)`
returns it; both end with the exception of the copy constructor. -/
theorem AnyCast_twice_counterexample :
    (sampleFragile 0).holder_ = some ⟨SampleType.Fragile, ⟨true⟩⟩ ∧
    (AnyCast sampleFragile SampleType.Fragile 0).result ≠ .ok true ∧
    (AnyCast (AnyCast sampleFragile SampleType.Fragile 0).store SampleType.Fragile 0).result
      = .error (.copyException SampleExn.FragileError) :=
  ⟨rfl, fun h => Except.noConfusion h, rfl⟩

/-! ## Self-assignment, `Swap` and `Reset` -/

/-- C11: copy self-assignment `c = c` and self-move-assignment
`c = std::move(c)` both return and leave every container as it was, so
`HasValue(c)` and the result of `AnyCast<T>(c)` for every `T` are unchanged; an
occupied `c` is still occupied after the self-move. -/
theorem self_assignment_noop (U : TypeUniverse) (σ : Store U) (c : Addr) :
    (Any.operator_assign_copy σ c c).result = .ok () ∧
    (Any.operator_assign_copy σ c c).store = σ ∧
    (Any.operator_assign_move σ c c).result = .ok () ∧
    (Any.operator_assign_move σ c c).store = σ ∧
    Any.HasValue (Any.operator_assign_copy σ c c).store c = Any.HasValue σ c ∧
    Any.HasValue (Any.operator_assign_move σ c c).store c = Any.HasValue σ c ∧
    (∀ T, (AnyCast (Any.operator_assign_copy σ c c).store T c).result
      = (AnyCast σ T c).result) ∧
    (∀ T, (AnyCast (Any.operator_assign_move σ c c).store T c).result
      = (AnyCast σ T c).result) ∧
    (Any.HasValue σ c = true →
      Any.HasValue (Any.operator_assign_move σ c c).store c = true) := by
  have hcopy : Any.operator_assign_copy σ c c = ⟨.ok (), σ⟩ := by
    simp [Any.operator_assign_copy]
  have hmove : Any.operator_assign_move σ c c = ⟨.ok (), σ⟩ := by
    simp [Any.operator_assign_move]
  rw [hcopy, hmove]
  exact ⟨rfl, rfl, rfl, rfl, rfl, rfl, fun _ => rfl, fun _ => rfl, fun h => h⟩

/-- Witness of C11: after `Any a0(42); a0 = std::move(a0);` the container
`a0` still has its value and `AnyCast<int>(a0)` returns 42. -/
theorem self_assignment_noop_witness :
    Any.HasValue sampleInt 0 = true ∧
    Any.HasValue (Any.operator_assign_move sampleInt 0 0).store 0 = true ∧
    (AnyCast (Any.operator_assign_move sampleInt 0 0).store SampleType.int 0).result
      = .ok (42 : Int) :=
  ⟨rfl, (self_assignment_noop Sample sampleInt 0).2.2.2.2.2.2.2.2 rfl, rfl⟩

/-- The store that `Swap` leaves. -/
theorem Swap_store {U : TypeUniverse} (σ : Store U) (a b : Addr) :
    (Any.Swap σ a b).store a = σ b ∧
    (Any.Swap σ a b).store b = σ a ∧
    ∀ x, x ≠ a → x ≠ b → (Any.Swap σ a b).store x = σ x := by
  refine ⟨?_, ?_, fun x hxa hxb => ?_⟩
  · by_cases hab : a = b
    · subst hab
      simp [Any.Swap, Store.setHolder_same]
    · simp [Any.Swap, Store.setHolder_other _ hab, Store.setHolder_same]
  · simp [Any.Swap, Store.setHolder_same]
  · simp [Any.Swap, Store.setHolder_other _ hxa, Store.setHolder_other _ hxb]

/-- C12: `a.Swap(b)` always returns; afterwards `a` is in the prior state of `b`
and `b` in the prior state of `a` (so `HasValue` and the results of `AnyCast<T>`
for every `T` are exchanged), no other container changes, and `a.Swap(a)`
leaves everything as it was. The holders change owner: no `Clone` is run, so
the call returns whatever the copy constructors of the held types would do. -/
theorem Swap_spec (U : TypeUniverse) (σ : Store U) (a b : Addr) :
    (Any.Swap σ a b).result = .ok () ∧
    (Any.Swap σ a b).store a = σ b ∧
    (Any.Swap σ a b).store b = σ a ∧
    Any.HasValue (Any.Swap σ a b).store a = Any.HasValue σ b ∧
    Any.HasValue (Any.Swap σ a b).store b = Any.HasValue σ a ∧
    (∀ T, (AnyCast (Any.Swap σ a b).store T a).result = (AnyCast σ T b).result) ∧
    (∀ T, (AnyCast (Any.Swap σ a b).store T b).result = (AnyCast σ T a).result) ∧
    (∀ x, x ≠ a → x ≠ b → (Any.Swap σ a b).store x = σ x) ∧
    (Any.Swap σ a a).store = σ := by
  obtain ⟨ha, hb, hframe⟩ := Swap_store σ a b
  refine ⟨rfl, ha, hb, ?_, ?_, ?_, ?_, hframe, ?_⟩
  · exact HasValue_congr _ σ a b (by rw [ha])
  · exact HasValue_congr _ σ b a (by rw [hb])
  · exact fun T => AnyCast_result_congr _ σ a b T (by rw [ha])
  · exact fun T => AnyCast_result_congr _ σ b a T (by rw [hb])
  · funext x
    by_cases hx : x = a
    · subst hx
      exact (Swap_store σ x x).1
    · exact (Swap_store σ a a).2.2 x hx hx

/-- C14: `Reset` always returns and leaves the container empty, a second
`Reset` changes nothing more, and no other container is touched. -/
theorem Reset_spec (U : TypeUniverse) (σ : Store U) (c : Addr) :
    (Any.Reset σ c).result = .ok () ∧
    Any.HasValue (Any.Reset σ c).store c = false ∧
    (Any.Reset (Any.Reset σ c).store c).result = .ok () ∧
    (Any.Reset (Any.Reset σ c).store c).store = (Any.Reset σ c).store ∧
    (∀ x, x ≠ c → (Any.Reset σ c).store x = σ x) := by
  refine ⟨rfl, ?_, rfl, ?_, fun x hx => ?_⟩
  · exact (HasValue_eq_false_iff _ c).2 (by simp [Any.Reset, Store.setHolder_same])
  · simp [Any.Reset, Store.setHolder]
  · simp [Any.Reset, Store.setHolder_other _ hx]

/-- C18: `a.Swap(b)` and `b.Swap(a)` leave the same state, and `a.Swap(b)`
done twice restores the state it started from. -/
theorem Swap_symmetric_involution (U : TypeUniverse) (σ : Store U) (a b : Addr) :
    (Any.Swap σ a b).store = (Any.Swap σ b a).store ∧
    (Any.Swap (Any.Swap σ a b).store a b).store = σ := by
  constructor
  · funext x
    obtain ⟨h1, h2, h3⟩ := Swap_store σ a b
    obtain ⟨k1, k2, k3⟩ := Swap_store σ b a
    by_cases hxa : x = a
    · subst hxa
      rw [h1, k2]
    · by_cases hxb : x = b
      · subst hxb
        rw [h2, k1]
      · rw [h3 x hxa hxb, k3 x hxb hxa]
  · funext x
    obtain ⟨h1, h2, h3⟩ := Swap_store σ a b
    obtain ⟨k1, k2, k3⟩ := Swap_store (Any.Swap σ a b).store a b
    by_cases hxa : x = a
    · subst hxa
      rw [k1, h2]
    · by_cases hxb : x = b
      · subst hxb
        rw [k2, h1]
      · rw [k3 x hxa hxb, h3 x hxa hxb]

/-! ## Frame of a call, and independence of copies -/

/-- A call changes only the objects it has non-const access to. -/
theorem Call.run_frame {U : TypeUniverse} (k : Call U) (σ : Store U) (a : Addr)
    (ha : a ∉ k.targets) : (k.run σ).store a = σ a := by
  cases k with
  | Any_default this =>
    have h1 : a ≠ this := by simpa [Call.targets] using ha
    exact Store.setHolder_other σ h1 _
  | Any_value this T v arg hT =>
    have h1 : a ≠ this := by simpa [Call.targets] using ha
    show (Any.Any_value σ this T v arg hT).store a = σ a
    rcases Any_value_cases σ this T v arg hT with ⟨hshape, _⟩ | ⟨e, _, _, hshape⟩
    · rw [hshape]
      exact Store.setHolder_other σ h1 _
    · rw [hshape]
  | Any_copy this other =>
    have h1 : a ≠ this := by simpa [Call.targets] using ha
    simp only [Call.run, Any.Any_copy]
    split
    · rfl
    · split
      · exact Store.setHolder_other σ h1 _
      · rfl
  | operator_assign_copy this other =>
    have h1 : a ≠ this := by simpa [Call.targets] using ha
    simp only [Call.run, Any.operator_assign_copy]
    split
    · split
      · split
        · exact Store.setHolder_other σ h1 _
        · rfl
      · exact Store.setHolder_other σ h1 _
    · rfl
  | operator_assign_move this other =>
    have h1 : a ≠ this ∧ a ≠ other := by simpa [Call.targets] using ha
    simp only [Call.run, Any.operator_assign_move]
    split
    · simp [Store.setHolder_other _ h1.1, Store.setHolder_other _ h1.2]
    · rfl
  | Swap this other =>
    have h1 : a ≠ this ∧ a ≠ other := by simpa [Call.targets] using ha
    exact (Swap_store σ this other).2.2 a h1.1 h1.2
  | Reset this =>
    have h1 : a ≠ this := by simpa [Call.targets] using ha
    exact Store.setHolder_other σ h1 _

/-- A sequence of calls changes only the objects its calls have non-const
access to. -/
theorem runCalls_frame {U : TypeUniverse} (calls : List (Call U)) (σ : Store U) (a : Addr)
    (ha : ∀ k ∈ calls, a ∉ k.targets) : runCalls calls σ a = σ a := by
  induction calls generalizing σ with
  | nil => rfl
  | cons k ks ih =>
    have hk : a ∉ k.targets := ha k (List.mem_cons_self k ks)
    have hks : ∀ j ∈ ks, a ∉ j.targets := fun j hj => ha j (List.mem_cons_of_mem k hj)
    show runCalls ks (k.run σ).store a = σ a
    rw [ih (k.run σ).store hks, Call.run_frame k σ a hk]

/-- A copy construction that returns has found the copy constructor of the
held type completing on the held value. -/
theorem copyThrows_none_of_Any_copy_ok {U : TypeUniverse} (σ : Store U) (d s : Addr)
    (T : U.Ty) (v : U.Val T) (hv : (σ s).holder_ = some ⟨T, ⟨v⟩⟩)
    (hmade : (Any.Any_copy σ d s).result = .ok ()) : U.copyThrows T v = none := by
  cases hthr : U.copyThrows T v with
  | none => rfl
  | some e =>
    have hcl : IHolder.Clone (U := U) ⟨T, ⟨v⟩⟩ = .error (.copyException e) := by
      simp [IHolder.Clone, AnyHolder.Clone, copy_throws hthr]
    simp [Any.Any_copy, hv, hcl] at hmade

/-- C13: let `c1` hold `v` of type `T` and let `c2`, a different container, be
made as a copy of `c1`, by copy construction or by copy assignment (both leave
the same state). Then whatever is later done to other containers than `c2`
(in particular `c1.Reset()` or an assignment of another value to `c1`), `c2`
still has a value and `AnyCast<T>(c2)` still returns `v`; and symmetrically
whatever is later done to other containers than `c1` leaves `c1` with its
value `v`. -/
theorem copy_independence (U : TypeUniverse) (σ : Store U) (c1 c2 : Addr)
    (T : U.Ty) (v : U.Val T)
    (hne : c1 ≠ c2) (hv : (σ c1).holder_ = some ⟨T, ⟨v⟩⟩)
    (hmade : (Any.Any_copy σ c2 c1).result = .ok ()) :
    Any.operator_assign_copy σ c2 c1 = Any.Any_copy σ c2 c1 ∧
    (AnyCast (Any.Any_copy σ c2 c1).store T c2).result = .ok v ∧
    (∀ calls : List (Call U), (∀ k ∈ calls, c2 ∉ k.targets) →
      Any.HasValue (runCalls calls (Any.Any_copy σ c2 c1).store) c2 = true ∧
      (AnyCast (runCalls calls (Any.Any_copy σ c2 c1).store) T c2).result = .ok v) ∧
    (∀ calls : List (Call U), (∀ k ∈ calls, c1 ∉ k.targets) →
      Any.HasValue (runCalls calls (Any.Any_copy σ c2 c1).store) c1 = true ∧
      (AnyCast (runCalls calls (Any.Any_copy σ c2 c1).store) T c1).result = .ok v) := by
  have hcopy : U.copyThrows T v = none :=
    copyThrows_none_of_Any_copy_ok σ c2 c1 T v hv hmade
  have hcl : IHolder.Clone (U := U) ⟨T, ⟨v⟩⟩ = .ok ⟨T, ⟨v⟩⟩ :=
    Clone_of_copy_completes ⟨T, ⟨v⟩⟩ hcopy
  have hshape : Any.Any_copy σ c2 c1 = ⟨.ok (), σ.setHolder c2 (some ⟨T, ⟨v⟩⟩)⟩ := by
    simp [Any.Any_copy, hv, hcl]
  have hne2 : c2 ≠ c1 := fun e => hne e.symm
  have h2 : ((Any.Any_copy σ c2 c1).store c2).holder_ = some ⟨T, ⟨v⟩⟩ := by
    rw [hshape]
    simp [Store.setHolder_same]
  have h1 : ((Any.Any_copy σ c2 c1).store c1).holder_ = some ⟨T, ⟨v⟩⟩ := by
    rw [hshape]
    simp [Store.setHolder_other _ hne, hv]
  have key : ∀ (τ : Store U) (a : Addr), (τ a).holder_ = some ⟨T, ⟨v⟩⟩ →
      Any.HasValue τ a = true ∧ (AnyCast τ T a).result = .ok v := by
    intro τ a hτ
    refine ⟨(HasValue_eq_true_iff τ a).2 ⟨_, hτ⟩, ?_⟩
    rw [AnyCast_of_holder τ a T ⟨v⟩ hτ]
    exact copy_completes hcopy
  refine ⟨?_, (key _ c2 h2).2, fun calls hcalls => ?_, fun calls hcalls => ?_⟩
  · simp [Any.operator_assign_copy, hne2, Any.Any_copy, hv, hcl]
  · exact key _ c2 (by rw [runCalls_frame calls _ c2 hcalls]; exact h2)
  · exact key _ c1 (by rw [runCalls_frame calls _ c1 hcalls]; exact h1)

/-- Witness of C13: after `Any a0(42); Any a1(a0);`, both `a0.Reset();` and
`a0 = std::string("x");` (a temporary at address 2 moved into `a0`) leave
`AnyCast<int>(a1)` returning 42. -/
theorem copy_independence_witness :
    (0 : Addr) ≠ 1 ∧
    (sampleInt 0).holder_ = some ⟨SampleType.int, ⟨(42 : Int)⟩⟩ ∧
    (Any.Any_copy sampleInt 1 0).result = .ok () ∧
    (AnyCast (runCalls [Call.Reset 0] (Any.Any_copy sampleInt 1 0).store)
      SampleType.int 1).result = .ok (42 : Int) ∧
    (AnyCast (runCalls [Call.Any_value 2 SampleType.string "x" .prvalue rfl,
      Call.operator_assign_move 0 2]
      (Any.Any_copy sampleInt 1 0).store) SampleType.int 1).result = .ok (42 : Int) ∧
    (AnyCast (runCalls [Call.Any_value 2 SampleType.string "x" .prvalue rfl,
      Call.operator_assign_move 0 2]
      (Any.Any_copy sampleInt 1 0).store) SampleType.string 0).result = .ok "x" :=
  ⟨by decide, rfl, rfl,
    ((copy_independence Sample sampleInt 0 1 SampleType.int (42 : Int) (by decide) rfl rfl).2.2.1
      [Call.Reset 0] (by simp [Call.targets])).2,
    ((copy_independence Sample sampleInt 0 1 SampleType.int (42 : Int) (by decide) rfl rfl).2.2.1
      [Call.Any_value 2 SampleType.string "x" .prvalue rfl,
      Call.operator_assign_move 0 2]
      (by simp [Call.targets])).2,
    rfl⟩

/-! ## Where `BadAnyCast` comes from -/

/-- A failing `Clone` fails with the exception of a copy constructor. -/
theorem Clone_error_ne_BadAnyCast {U : TypeUniverse} (h : IHolder U) (e : Failure U.Exn)
    (hcl : h.Clone = .error e) : e ≠ .BadAnyCast := by
  intro he
  subst he
  unfold IHolder.Clone AnyHolder.Clone at hcl
  cases hcp : U.copy h.T h.obj.value with
  | ok v => rw [hcp] at hcl; exact Except.noConfusion hcl
  | error e2 =>
    rw [hcp] at hcl
    have h2 : e2 = .BadAnyCast := by
      injection hcl
    exact copy_ne_BadAnyCast h.T h.obj.value (by rw [hcp, h2])

/-- When `AnyCast<T>` throws `BadAnyCast`. -/
theorem AnyCast_BadAnyCast_iff {U : TypeUniverse} (σ : Store U) (c : Addr) (T : U.Ty) :
    (AnyCast σ T c).result = .error .BadAnyCast ↔
      (Any.HasValue σ c = false ∨ ∃ h, (σ c).holder_ = some h ∧ h.T ≠ T) := by
  cases hc : (σ c).holder_ with
  | none =>
    rw [AnyCast_of_null σ c T hc]
    exact ⟨fun _ => Or.inl ((HasValue_eq_false_iff σ c).2 hc), fun _ => rfl⟩
  | some h =>
    obtain ⟨T2, o⟩ := h
    have hocc : Any.HasValue σ c ≠ false := by
      rw [(HasValue_eq_true_iff σ c).2 ⟨_, hc⟩]
      simp
    by_cases hT : T2 = T
    · subst hT
      rw [AnyCast_of_holder σ c T2 o hc]
      constructor
      · intro hbad
        exact absurd hbad (copy_ne_BadAnyCast T2 o.value)
      · rintro (hempty | ⟨h, hh, hne⟩)
        · exact absurd hempty hocc
        · cases hh
          exact absurd rfl hne
    · rw [AnyCast_of_other_holder σ c T ⟨T2, o⟩ hc (fun e => hT e.symm)]
      exact ⟨fun _ => Or.inr ⟨_, rfl, hT⟩, fun _ => rfl⟩

/-- C15: `AnyCast<T>(c)` throws `BadAnyCast` exactly when `c` is empty or the
type it holds is not `T`; and no constructor, assignment operator, `Swap` or
`Reset` ever ends with `BadAnyCast` (`HasValue` returns a `bool` and has no
way to fail at all). -/
theorem BadAnyCast_only_from_AnyCast (U : TypeUniverse) (σ : Store U) (c : Addr)
    (T : U.Ty) :
    ((AnyCast σ T c).result = .error .BadAnyCast ↔
      (Any.HasValue σ c = false ∨ ∃ h, (σ c).holder_ = some h ∧ h.T ≠ T)) ∧
    (∀ k : Call U, (k.run σ).result ≠ .error .BadAnyCast) := by
  refine ⟨AnyCast_BadAnyCast_iff σ c T, fun k => ?_⟩
  · cases k with
    | Any_default this => exact fun h => Except.noConfusion h
    | Any_value this T2 v arg hT =>
      show (Any.Any_value σ this T2 v arg hT).result ≠ _
      rcases Any_value_cases σ this T2 v arg hT with ⟨hshape, _⟩ | ⟨e, _, _, hshape⟩
      · rw [hshape]
        exact fun h => Except.noConfusion h
      · rw [hshape]
        intro h
        injection h with h2
        exact Failure.noConfusion h2
    | Any_copy this other =>
      simp only [Call.run, Any.Any_copy]
      split
      · intro h
        injection h with h2
        exact Failure.noConfusion h2
      · rename_i hh hs
        split
        · exact fun h => Except.noConfusion h
        · rename_i e hcl
          intro h
          injection h with h2
          exact Clone_error_ne_BadAnyCast hh e hcl h2
    | operator_assign_copy this other =>
      simp only [Call.run, Any.operator_assign_copy]
      split
      · split
        · rename_i hh hs
          split
          · exact fun h => Except.noConfusion h
          · rename_i e hcl
            intro h
            injection h with h2
            exact Clone_error_ne_BadAnyCast hh e hcl h2
        · exact fun h => Except.noConfusion h
      · exact fun h => Except.noConfusion h
    | operator_assign_move this other =>
      simp only [Call.run, Any.operator_assign_move]
      split <;> exact fun h => Except.noConfusion h
    | Swap this other => exact fun h => Except.noConfusion h
    | Reset this => exact fun h => Except.noConfusion h

/-! ## Construction from a container -/

/-- C16 (amended): constructing a container `d` from an occupied container `s`
runs the copy constructor, not the generic value constructor, and yields a
copy, not a nested container: when the duplication of the holder completes,
`d` holds what `s` holds (a value of the inner type, `s` unchanged), so
`AnyCast` of the inner type on `d` returns the inner value and `AnyCast<Any>` on
`d` throws `BadAnyCast`. `TAny` is the class `Any` as a stored type. -/
theorem Any_from_Any_copies (U : TypeUniverse) (TAny : U.Ty) (σ : Store U) (d s : Addr)
    (h : IHolder U)
    (hds : d ≠ s) (hocc : (σ s).holder_ = some h) (hinner : h.T ≠ TAny)
    (hclone : U.copyThrows h.T h.obj.value = none) :
    Any.Any_from_Any σ d s = Any.Any_copy σ d s ∧
    (Any.Any_from_Any σ d s).result = .ok () ∧
    (Any.Any_from_Any σ d s).store d = σ s ∧
    (Any.Any_from_Any σ d s).store s = σ s ∧
    (AnyCast (Any.Any_from_Any σ d s).store h.T d).result = .ok h.obj.value ∧
    (AnyCast (Any.Any_from_Any σ d s).store TAny d).result = .error .BadAnyCast := by
  have hshape : Any.Any_from_Any σ d s = ⟨.ok (), σ.setHolder d (some h)⟩ := by
    simp [Any.Any_from_Any, Any.Any_copy, hocc, Clone_of_copy_completes h hclone]
  have hd : ((Any.Any_from_Any σ d s).store d).holder_ = some h := by
    rw [hshape]
    simp [Store.setHolder_same]
  have hsd : s ≠ d := fun e => hds e.symm
  refine ⟨rfl, by rw [hshape], ?_, ?_, ?_, ?_⟩
  · rw [hshape]
    show σ.setHolder d (some h) d = σ s
    rw [Store.setHolder_same, ← hocc]
  · rw [hshape]
    exact Store.setHolder_other σ hsd _
  · rw [AnyCast_of_holder _ d h.T h.obj hd]
    exact copy_completes hclone
  · rw [AnyCast_of_other_holder _ d TAny h hd (fun e => hinner e.symm)]

/-- Witness of C16 (amended): after `Any a0(42); Any a1(a0);` the container
`a1` holds the `int` 42. -/
theorem Any_from_Any_copies_witness :
    (1 : Addr) ≠ 0 ∧
    (nestInt 0).holder_ = some ⟨NestType.int, ⟨(42 : Int)⟩⟩ ∧
    NestType.int ≠ NestType.Any ∧
    ((Any.Any_from_Any nestInt 1 0).store 1).holder_
      = some ⟨NestType.int, ⟨(42 : Int)⟩⟩ ∧
    (AnyCast (Any.Any_from_Any nestInt 1 0).store NestType.int 1).result
      = .ok (42 : Int) :=
  ⟨by decide, rfl, by decide, rfl,
    (Any_from_Any_copies Nest NestType.Any nestInt 1 0 ⟨NestType.int, ⟨(42 : Int)⟩⟩
      (by decide) rfl (show NestType.int ≠ NestType.Any by decide) rfl).2.2.2.2.1⟩

/-- Counterexample to C16 as stated: after `Any a0(42); Any a1(a0);` the cast
`AnyCast<Any>(a1)` throws `BadAnyCast` and `AnyCast<int>(a1)`, the cast to the
type of the inner value, returns 42; `a1` is not a nested container. -/
theorem Any_from_Any_not_nested_counterexample :
    (AnyCast (Any.Any_from_Any nestInt 1 0).store NestType.Any 1).result
      = .error .BadAnyCast ∧
    (AnyCast (Any.Any_from_Any nestInt 1 0).store NestType.int 1).result
      = .ok (42 : Int) ∧
    (AnyCast (Any.Any_from_Any nestInt 1 0).store NestType.int 1).result
      ≠ .error .BadAnyCast :=
  ⟨rfl, rfl, fun h => Except.noConfusion h⟩

/-! ## The held type -/

/-- In any state, a container has a value exactly when some `AnyCast<T>` on it
does not throw `BadAnyCast`, and there is at most one such `T`. -/
theorem held_type_unique_at {U : TypeUniverse} (σ : Store U) (c : Addr) :
    (Any.HasValue σ c = true ↔ ∃ T, (AnyCast σ T c).result ≠ .error .BadAnyCast) ∧
    (∀ T T2, (AnyCast σ T c).result ≠ .error .BadAnyCast →
      (AnyCast σ T2 c).result ≠ .error .BadAnyCast → T = T2) := by
  have hT : ∀ T, (AnyCast σ T c).result ≠ .error .BadAnyCast →
      ∃ h, (σ c).holder_ = some h ∧ h.T = T := by
    intro T hok
    cases hc : (σ c).holder_ with
    | none => exact absurd (by rw [AnyCast_of_null σ c T hc]) hok
    | some h =>
      refine ⟨h, rfl, ?_⟩
      by_contra hne
      exact hok ((AnyCast_BadAnyCast_iff σ c T).2 (Or.inr ⟨h, hc, hne⟩))
  constructor
  · constructor
    · intro hocc
      obtain ⟨h, hc⟩ := (HasValue_eq_true_iff σ c).1 hocc
      refine ⟨h.T, ?_⟩
      rw [AnyCast_of_holder σ c h.T h.obj hc]
      exact copy_ne_BadAnyCast h.T h.obj.value
    · rintro ⟨T, hok⟩
      obtain ⟨h, hc, _⟩ := hT T hok
      exact (HasValue_eq_true_iff σ c).2 ⟨h, hc⟩
  · intro T T2 h1 h2
    obtain ⟨h, hc, e1⟩ := hT T h1
    obtain ⟨k, hk, e2⟩ := hT T2 h2
    rw [hc] at hk
    cases hk
    rw [← e1, ← e2]

/-- C17: in every state reached from any state by a sequence of calls of the
public operations, `HasValue(c)` is true exactly when there is a type `T` for
which `AnyCast<T>(c)` succeeds (does not throw `BadAnyCast`), and there is at
most one such type; in particular two casts that both return a value are
casts to the same type. -/
theorem held_type_unique (U : TypeUniverse) (σ0 : Store U) (calls : List (Call U))
    (c : Addr) :
    (Any.HasValue (runCalls calls σ0) c = true ↔
      ∃ T, (AnyCast (runCalls calls σ0) T c).result ≠ .error .BadAnyCast) ∧
    (∀ T T2, (AnyCast (runCalls calls σ0) T c).result ≠ .error .BadAnyCast →
      (AnyCast (runCalls calls σ0) T2 c).result ≠ .error .BadAnyCast → T = T2) ∧
    (∀ T T2 (v : U.Val T) (v2 : U.Val T2),
      (AnyCast (runCalls calls σ0) T c).result = .ok v →
      (AnyCast (runCalls calls σ0) T2 c).result = .ok v2 → T = T2) := by
  obtain ⟨hiff, huniq⟩ := held_type_unique_at (runCalls calls σ0) c
  refine ⟨hiff, huniq, fun T T2 v v2 h1 h2 => huniq T T2 ?_ ?_⟩
  · rw [h1]
    exact fun h => Except.noConfusion h
  · rw [h2]
    exact fun h => Except.noConfusion h

/-- Witness of C17: after `Any a0(42); Any a1(a0); a0.Reset();` the container
`a1` has a value, `AnyCast<int>(a1)` returns it, and a cast of `a1` that
returns a value is a cast to `int`. -/
theorem held_type_unique_witness :
    Any.HasValue (runCalls [Call.Any_value 0 SampleType.int (42 : Int) .prvalue rfl, Call.Any_copy 1 0,
      Call.Reset 0] (Store.allEmpty Sample)) 1 = true ∧
    (AnyCast (runCalls [Call.Any_value 0 SampleType.int (42 : Int) .prvalue rfl, Call.Any_copy 1 0,
      Call.Reset 0] (Store.allEmpty Sample)) SampleType.int 1).result = .ok (42 : Int) ∧
    (∀ (T2 : SampleType) (v2 : T2.Val),
      (AnyCast (runCalls [Call.Any_value 0 SampleType.int (42 : Int) .prvalue rfl, Call.Any_copy 1 0,
        Call.Reset 0] (Store.allEmpty Sample)) T2 1).result = .ok v2 → SampleType.int = T2) :=
  ⟨rfl, rfl, fun T2 v2 h2 =>
    (held_type_unique Sample (Store.allEmpty Sample)
      [Call.Any_value 0 SampleType.int (42 : Int) .prvalue rfl, Call.Any_copy 1 0, Call.Reset 0] 1).2.2
      SampleType.int T2 (42 : Int) v2 rfl h2⟩

/-! ## Evaluations of `Swap` and `Reset` -/

/-- Witness of C12: after `Any a0(Fragile(true)); Any a1(7); a0.Swap(a1);` the
call has returned, `AnyCast<int>(a0)` returns 7 and `a1` holds the poisoned
`Fragile`, which no copy constructor has been asked to copy. -/
theorem Swap_spec_witness :
    (Any.Swap sampleFragile 0 1).result = .ok () ∧
    (AnyCast (Any.Swap sampleFragile 0 1).store SampleType.int 0).result = .ok (7 : Int) ∧
    ((Any.Swap sampleFragile 0 1).store 1).holder_
      = some ⟨SampleType.Fragile, ⟨true⟩⟩ ∧
    (Any.Swap sampleFragile 0 1).store 2 = sampleFragile 2 :=
  ⟨(Swap_spec Sample sampleFragile 0 1).1, rfl, rfl,
    (Swap_spec Sample sampleFragile 0 1).2.2.2.2.2.2.2.1 2 (by decide) (by decide)⟩

/-- Witness of C14: `Any a0(std::string("x")); a0.Reset();` leaves `a0` empty and does not
touch the object at address 1. -/
theorem Reset_spec_witness :
    Any.HasValue (Any.Reset (Any.Any_value (Store.allEmpty Sample) 0
      SampleType.string "x" .prvalue rfl).store 0).store 0 = false ∧
    (Any.Reset sampleFragile 0).store 1 = sampleFragile 1 :=
  ⟨(Reset_spec Sample (Any.Any_value (Store.allEmpty Sample) 0
      SampleType.string "x" .prvalue rfl).store 0).2.1,
    (Reset_spec Sample sampleFragile 0).2.2.2.2 1 (by decide)⟩

end CustomAny
